import Mathlib

/-!
Shallow embedding of the mock-server response dispensing engine
(`server.go`, `parse_args.go`).

Modelling conventions:
* Go `map[string][]string` header maps are modelled as partial functions
  `String → Option (List String)`; Go map iteration order is unspecified and
  never observable in the properties below.
* Go `[]byte` bodies are modelled as `List Nat` (byte values); Go `int`
  status codes and repeat counts as `Int`.
* The handler's `pos` field is a Go `int` that is initialized to 0 and only
  ever incremented, so it is modelled as `Nat`; the invariant `0 ≤ pos` of
  the spec is carried by the representation.
* The mutex in `handler` serializes `getResponse` calls; the embedding
  models the serialized behaviour as a state-passing function, so a
  "sequence of calls" is iteration of that function.
* I/O performed by `ServeHTTP` (request dumping/logging) and the HTTP
  transport are outside the state of interest; writing to the
  `http.ResponseWriter` is modelled by the `Outcome` the handler produces
  for a request, and `panic(http.ErrAbortHandler)` by `Outcome.aborted`
  (connection aborted, nothing written).
-/

namespace MockServer

/-- Go `map[string][]string` (header map), as a partial function from keys. -/
abbrev Headers : Type := String → Option (List String)

/-- The everywhere-undefined header map (Go empty map). -/
def emptyHeaders : Headers := fun _ => none

/-- Go `net/textproto` `validHeaderFieldByte`: token bytes allowed in a
header field name (letters, digits and the RFC token specials). -/
def validHeaderFieldChar (c : Char) : Bool :=
  c.isAlphanum ||
    (c == '!' || c == '#' || c == '$' || c == '%' || c == '&' ||
     c == Char.ofNat 39 || c == '*' || c == '+' || c == '-' || c == '.' ||
     c == '^' || c == '_' || c == Char.ofNat 96 || c == '|' || c == '~')

/-- The canonicalization loop of Go `net/textproto.CanonicalMIMEHeaderKey`:
uppercase a letter at the start and after each hyphen, lowercase elsewhere. -/
def canonicalChars : Bool → List Char → List Char
  | _, [] => []
  | upper, c :: cs =>
    let c' := if upper && c.isLower then c.toUpper
              else if !upper && c.isUpper then c.toLower
              else c
    c' :: canonicalChars (c' == '-') cs

/-- Go `net/textproto.CanonicalMIMEHeaderKey`: if every byte is a valid
header field byte, canonicalize the case; otherwise return the key
unchanged.  `parseHeaders` (via `textproto.ReadMIMEHeader`) and
`http.Header.Set/Add` store every header key in this canonical form, which
is how the program realizes case-insensitive key matching. -/
def canonicalMIMEHeaderKey (s : String) : String :=
  if s.data.all validHeaderFieldChar then String.mk (canonicalChars true s.data) else s

/-- A header map whose every present key is already in canonical MIME form.
All header maps in the program are produced by `parseHeaders`
(`textproto.ReadMIMEHeader`), so they satisfy this. -/
def CanonicalKeyed (m : Headers) : Prop :=
  ∀ k vs, m k = some vs → canonicalMIMEHeaderKey k = k

/-- `responseConfig` from `parse_args.go` / `server.go`. -/
structure responseConfig where
  statusCode : Int
  body : List Nat
  headers : Headers

/-- `response` from `server.go`: a fully resolved scripted response. -/
structure response where
  statusCode : Int
  body : List Nat
  headers : Headers

/-- The header-map effect of `newResponse`'s `maps.Clone(baseHeader)`
followed by `maps.Copy(r.headers, c.headers)`: every key of the override
map replaces the key's entry in (a clone of) the base map. -/
def mergeHeaders (base override : Headers) : Headers := fun k =>
  match override k with
  | some vs => some vs
  | none => base k

/-- `newResponse` from `server.go`: resolve a `responseConfig` against the
base (global) header map. -/
def newResponse (c : responseConfig) (baseHeader : Headers) : response :=
  { statusCode := c.statusCode
    body := c.body
    headers := mergeHeaders baseHeader c.headers }

/-- `handler` from `server.go`.  The mutex and the logger carry no
dispensing state; `shutdownServer` is a callback whose invocation is
recorded in the request `Outcome` below. -/
structure handler where
  responses : List response
  pos : Nat

/-- `newHandler` from `server.go`: resolve every `responseConfig` against
the global header map, in order.  It has no error path and performs no
emptiness check. -/
def newHandler (grobalHeader : Headers) (respConfigs : List responseConfig) : handler :=
  { responses := respConfigs.map (fun rc => newResponse rc grobalHeader)
    pos := 0 }

/-- `handler.getResponse` from `server.go`: under the mutex, if
`pos < len(responses)` return `responses[pos]` and
`isLast = (pos+1 >= len(responses))` after incrementing `pos`;
otherwise return `(nil, false)` and leave the state unchanged. -/
def getResponse (h : handler) : (Option response × Bool) × handler :=
  if hlt : h.pos < h.responses.length then
    ((some h.responses[h.pos], decide (h.responses.length ≤ h.pos + 1)),
      { h with pos := h.pos + 1 })
  else
    ((none, false), h)

/-- What a single request observes from the handler.  `aborted` models
`panic(http.ErrAbortHandler)`: the connection is aborted and no status
line, headers or body are written.  `written` records the header map,
status code and body written to the `ResponseWriter`, and whether this
request spawned the shutdown goroutine (`go h.shutdownServer()`). -/
inductive Outcome where
  | aborted : Outcome
  | written (headers : Headers) (statusCode : Int) (body : List Nat)
      (shutdownTriggered : Bool) : Outcome

/-- Whether the outcome wrote a response. -/
def Outcome.isWritten : Outcome → Bool
  | .aborted => false
  | .written _ _ _ _ => true

/-- Whether the outcome spawned the shutdown goroutine. -/
def Outcome.triggered : Outcome → Bool
  | .aborted => false
  | .written _ _ _ b => b

/-- The header-writing loop of `ServeHTTP` over the fresh (empty)
`ResponseWriter` header map: for each key, `Set` the first value and `Add`
the remaining ones, i.e. a key with a non-empty value list is written with
exactly that list and a key with an empty value list is not written. -/
def writtenHeader (hs : Headers) : Headers := fun k =>
  match hs k with
  | some (v :: vs) => some (v :: vs)
  | _ => none

/-- `handler.ServeHTTP` from `server.go`: take the next response from the
dispenser; on `nil` abort the connection (`panic(http.ErrAbortHandler)`)
without writing; otherwise (spawning the shutdown goroutine when `isLast`)
write the response's headers, status code and body.  Request logging is
I/O with no effect on the dispensing state and is omitted. -/
def ServeHTTP (h : handler) : handler × Outcome :=
  match getResponse h with
  | ((none, _), h') => (h', .aborted)
  | ((some r, isLast), h') =>
    (h', .written (writtenHeader r.headers) r.statusCode r.body isLast)

/-- The handler state after one request (requests are serialized by the
dispenser mutex at `getResponse`). -/
def stepServe (h : handler) : handler := (ServeHTTP h).1

/-- The handler state after `n` requests. -/
def serveIter (h : handler) : Nat → handler
  | 0 => h
  | n + 1 => serveIter (stepServe h) n

/-- The `(resp, isLast)` pair returned by the `i`-th `getResponse` call
(0-indexed) in a sequence of calls starting from `h`. -/
def nthCall (h : handler) (i : Nat) : Option response × Bool :=
  (getResponse (serveIter h i)).1

/-- The outcome of the `i`-th request (0-indexed) in a sequence of
requests starting from `h`. -/
def nthOutcome (h : handler) (i : Nat) : Outcome :=
  (ServeHTTP (serveIter h i)).2

/-- One observable action of the body of `ServeHTTP`, in source order:
abort the connection (`panic(http.ErrAbortHandler)`), spawn the shutdown
goroutine (`go h.shutdownServer()`), log the dumped request, run the
header-writing loop, write the status line (`w.WriteHeader`), write the
body (`w.Write`). -/
inductive ServeAction where
  | abortConnection : ServeAction
  | spawnShutdown : ServeAction
  | logRequest : ServeAction
  | setHeaders (hs : Headers) : ServeAction
  | writeStatus (code : Int) : ServeAction
  | writeBody (b : List Nat) : ServeAction

/-- Whether the action is the shutdown-goroutine spawn. -/
def ServeAction.isShutdownSpawn : ServeAction → Bool
  | .spawnShutdown => true
  | _ => false

/-- Whether the action writes part of the HTTP response. -/
def ServeAction.isResponseWrite : ServeAction → Bool
  | .setHeaders _ => true
  | .writeStatus _ => true
  | .writeBody _ => true
  | _ => false

/-- `handler.ServeHTTP` again, refined to the ordered list of actions its
body performs (same source function as `ServeHTTP` above, keeping the
program order of the statements): on exhaustion only the abort; otherwise,
when `isLast`, the shutdown spawn FIRST (it precedes the request dump and
the response write in the source), then the log, the header loop, the
status line and the body. -/
def serveActions (h : handler) : handler × List ServeAction :=
  match getResponse h with
  | ((none, _), h') => (h', [ServeAction.abortConnection])
  | ((some r, isLast), h') =>
    (h', (if isLast then [ServeAction.spawnShutdown] else []) ++
      [ServeAction.logRequest, ServeAction.setHeaders (writtenHeader r.headers),
       ServeAction.writeStatus r.statusCode, ServeAction.writeBody r.body])

/-- The action trace of the `i`-th request (0-indexed) in a sequence of
requests starting from `h`. -/
def nthActions (h : handler) (i : Nat) : List ServeAction :=
  (serveActions (serveIter h i)).2

/-- Whether, in a trace, every response write precedes every shutdown
spawn, i.e. no shutdown spawn is followed by a response write ("write the
response, then invoke the trigger"). -/
def writesPrecedeShutdownSpawn : List ServeAction → Bool
  | [] => true
  | a :: rest =>
    (!(a.isShutdownSpawn && rest.any (fun b => b.isResponseWrite))) &&
      writesPrecedeShutdownSpawn rest

/-- `scriptEntry`: one parsed script entry of `parseResponsesPart`
(`<status> <body> [options]...`), after the external text plumbing
(`strconv.Atoi`, `flag` parsing, `--body-file` loading, `--trim-newline`,
`parseHeaders`) has produced its status code, body bytes, header map and
repeat count. -/
structure scriptEntry where
  statusCode : Int
  body : List Nat
  headers : Headers
  repeatCount : Int

/-- `repeatResponse` from `parse_args.go`: a slice of length `repeat`
whose every element is `resp`. -/
def repeatResponse (resp : responseConfig) (rep : Int) : List responseConfig :=
  List.replicate rep.toNat resp

/-- The per-entry loop of `parseResponsesPart`: reject `repeat <= 0`,
otherwise append `repeatResponse resp repeat` to the accumulated slice and
continue with the remaining entries. -/
def parseLoop : List scriptEntry → List responseConfig → Except String (List responseConfig)
  | [], acc => .ok acc
  | e :: rest, acc =>
    if e.repeatCount ≤ 0 then .error "repeat must be positive"
    else parseLoop rest
      (acc ++ repeatResponse { statusCode := e.statusCode, body := e.body, headers := e.headers } e.repeatCount)

/-- `parseResponsesPart` from `parse_args.go`, over the pre-tokenized
entry list (each Go loop iteration consumes at least the two tokens
`<status> <body>`, so `len(args) < 2` at entry is exactly the empty entry
list; malformed token tails are handled by the abstracted tokenizer). -/
def parseResponsesPart (entries : List scriptEntry) : Except String (List responseConfig) :=
  if entries.length < 1 then .error "status code and body are required"
  else parseLoop entries []

/-! ### Concrete instances used by witnesses and counterexamples -/

/-- A one-entry catalog `(200, "OK")`, cursor at 0. -/
def exHandler1 : handler :=
  { responses := [ { statusCode := 200, body := [79, 75], headers := emptyHeaders } ]
    pos := 0 }

/-- A two-entry catalog: `(200, "OK")` then `(404, "")`, cursor at 0. -/
def exHandler2 : handler :=
  { responses :=
      [ { statusCode := 200, body := [79, 75], headers := emptyHeaders }
      , { statusCode := 404, body := [], headers := emptyHeaders } ]
    pos := 0 }

/-- The handler built from an empty response list. -/
def exEmptyHandler : handler := newHandler emptyHeaders []

/-- The spec's example global header set `{"X-A": ["1"], "X-B": ["2"]}`. -/
def exBaseHeaders : Headers := fun k =>
  if k = "X-A" then some ["1"] else if k = "X-B" then some ["2"] else none

/-- The spec's example per-response override `{"X-B": ["3"]}`. -/
def exOverrideHeaders : Headers := fun k =>
  if k = "X-B" then some ["3"] else none

/-- The spec's example resolved set `{"X-A": ["1"], "X-B": ["3"]}`. -/
def exResolvedHeaders : Headers := fun k =>
  if k = "X-A" then some ["1"] else if k = "X-B" then some ["3"] else none

/-- The spec's example script entry `(200, "OK", [], repeat=3)`. -/
def exScriptEntry : scriptEntry :=
  { statusCode := 200, body := [79, 75], headers := emptyHeaders, repeatCount := 3 }

/-! ### Shared lemmas about the dispenser -/

/-- `getResponse` never changes the catalog. -/
lemma getResponse_responses (h : handler) : ((getResponse h).2).responses = h.responses := by
  unfold getResponse
  split <;> rfl

/-- The state threaded by `ServeHTTP` is the state of its `getResponse` call. -/
lemma stepServe_eq_getResponse (h : handler) : stepServe h = (getResponse h).2 := by
  unfold stepServe ServeHTTP
  rcases hg : getResponse h with ⟨⟨resp, isLast⟩, h'⟩
  cases resp <;> simp [hg]

/-- Iterating requests never changes the catalog. -/
lemma serveIter_responses (h : handler) (n : Nat) :
    (serveIter h n).responses = h.responses := by
  induction n generalizing h with
  | zero => rfl
  | succ n ih =>
    rw [serveIter, ih, stepServe_eq_getResponse, getResponse_responses]

/-- The cursor after a single `getResponse` call: incremented on success,
unchanged on exhaustion. -/
lemma getResponse_pos (h : handler) :
    ((getResponse h).2).pos =
      if h.pos < h.responses.length then h.pos + 1 else h.pos := by
  unfold getResponse
  split <;> simp_all

/-- Starting at or below the catalog length, the cursor after `n` requests
is `min (pos + n) length`. -/
lemma serveIter_pos (h : handler) (n : Nat) (hle : h.pos ≤ h.responses.length) :
    (serveIter h n).pos = min (h.pos + n) h.responses.length := by
  induction n generalizing h with
  | zero => simpa [serveIter] using hle
  | succ n ih =>
    rw [serveIter]
    have hresp : (stepServe h).responses = h.responses := by
      rw [stepServe_eq_getResponse, getResponse_responses]
    have hpos : (stepServe h).pos =
        if h.pos < h.responses.length then h.pos + 1 else h.pos := by
      rw [stepServe_eq_getResponse, getResponse_pos]
    by_cases hlt : h.pos < h.responses.length
    · have := ih (stepServe h) (by rw [hresp, hpos]; simp [hlt]; omega)
      rw [this, hresp, hpos]
      simp [hlt]
      omega
    · have hEq : h.pos = h.responses.length := le_antisymm hle (not_lt.mp hlt)
      have := ih (stepServe h) (by rw [hresp, hpos]; simp [hlt, hle])
      rw [this, hresp, hpos]
      simp [hlt]
      omega

/-- With the cursor at `0`, the cursor before the `i`-th request is `min i length`. -/
lemma serveIter_pos_zero (h : handler) (i : Nat) (h0 : h.pos = 0) :
    (serveIter h i).pos = min i h.responses.length := by
  rw [serveIter_pos h i (by omega), h0, Nat.zero_add]

/-- The `i`-th call, `i` within the catalog: it returns entry `i` and
`isLast = (length ≤ i + 1)`. -/
lemma nthCall_lt (h : handler) (i : Nat) (h0 : h.pos = 0)
    (hi : i < h.responses.length) :
    nthCall h i = (h.responses[i]?, decide (h.responses.length ≤ i + 1)) := by
  have hpos : (serveIter h i).pos = i := by
    rw [serveIter_pos_zero h i h0]; omega
  have hresp : (serveIter h i).responses = h.responses := serveIter_responses h i
  simp [nthCall, getResponse, hpos, hresp, hi, List.getElem?_eq_getElem hi]

/-- The `i`-th call, `i` at or past the catalog length: exhaustion. -/
lemma nthCall_ge (h : handler) (i : Nat) (h0 : h.pos = 0)
    (hi : h.responses.length ≤ i) :
    nthCall h i = (none, false) := by
  unfold nthCall
  have hpos : (serveIter h i).pos = h.responses.length := by
    rw [serveIter_pos_zero h i h0]; omega
  have hresp : (serveIter h i).responses = h.responses := serveIter_responses h i
  unfold getResponse
  split
  · rename_i hlt
    rw [hpos, hresp] at hlt
    omega
  · rfl

/-- The outcome of a request, expressed through its `getResponse` call. -/
lemma nthOutcome_eq (h : handler) (i : Nat) :
    nthOutcome h i =
      match nthCall h i with
      | (none, _) => Outcome.aborted
      | (some r, isLast) =>
        Outcome.written (writtenHeader r.headers) r.statusCode r.body isLast := by
  unfold nthOutcome nthCall ServeHTTP
  rcases hg : getResponse (serveIter h i) with ⟨⟨resp, isLast⟩, h'⟩
  cases resp <;> simp

/-- The state threaded by the action-trace view agrees with `stepServe`. -/
lemma serveActions_fst (h : handler) : (serveActions h).1 = stepServe h := by
  rw [stepServe_eq_getResponse]
  unfold serveActions
  rcases hg : getResponse h with ⟨⟨resp, isLast⟩, h'⟩
  cases resp <;> simp

/-- The action trace of a request, expressed through its `getResponse` call. -/
lemma nthActions_eq (h : handler) (i : Nat) :
    nthActions h i =
      match nthCall h i with
      | (none, _) => [ServeAction.abortConnection]
      | (some r, isLast) =>
        (if isLast then [ServeAction.spawnShutdown] else []) ++
          [ServeAction.logRequest, ServeAction.setHeaders (writtenHeader r.headers),
           ServeAction.writeStatus r.statusCode, ServeAction.writeBody r.body] := by
  unfold nthActions nthCall serveActions
  rcases hg : getResponse (serveIter h i) with ⟨⟨resp, isLast⟩, h'⟩
  cases resp <;> simp

/-- Unfolding one request at the end of a run. -/
lemma serveIter_succ_alt (h : handler) (n : Nat) :
    serveIter h (n + 1) = stepServe (serveIter h n) := by
  induction n generalizing h with
  | zero => rfl
  | succ n ih =>
    show serveIter (stepServe h) (n + 1) = _
    rw [ih (stepServe h)]
    rfl

/-- A single request never decreases the cursor. -/
lemma stepServe_pos_le (h : handler) : h.pos ≤ (stepServe h).pos := by
  rw [stepServe_eq_getResponse, getResponse_pos]
  split <;> omega

/-- The cursor is monotone along any run of requests. -/
lemma serveIter_pos_mono (h : handler) {n m : Nat} (hnm : n ≤ m) :
    (serveIter h n).pos ≤ (serveIter h m).pos := by
  obtain ⟨k, rfl⟩ := Nat.exists_eq_add_of_le hnm
  induction k with
  | zero => exact Nat.le_refl _
  | succ k ih =>
    calc (serveIter h n).pos ≤ (serveIter h (n + k)).pos := ih (by omega)
      _ ≤ (serveIter h (n + k + 1)).pos := by
          rw [serveIter_succ_alt]
          exact stepServe_pos_le _

/-! ### Shared lemmas about the parsing loop -/

/-- When every repeat count is positive, `parseLoop` succeeds with the
accumulated slice followed by the expanded entries in script order. -/
lemma parseLoop_ok (entries : List scriptEntry) (acc : List responseConfig)
    (hrep : ∀ e ∈ entries, 1 ≤ e.repeatCount) :
    parseLoop entries acc = .ok (acc ++
      (entries.map (fun e =>
        repeatResponse { statusCode := e.statusCode, body := e.body, headers := e.headers }
          e.repeatCount)).flatten) := by
  induction entries generalizing acc with
  | nil => simp [parseLoop]
  | cons e rest ih =>
    have h1 : ¬ e.repeatCount ≤ 0 := by
      have := hrep e (by simp)
      omega
    rw [parseLoop, if_neg h1, ih _ (fun x hx => hrep x (by simp [hx]))]
    simp

/-- A successful `parseLoop` run never shrinks the accumulated slice. -/
lemma parseLoop_length_mono (entries : List scriptEntry) (acc : List responseConfig)
    (cfgs : List responseConfig) (h : parseLoop entries acc = .ok cfgs) :
    acc.length ≤ cfgs.length := by
  induction entries generalizing acc with
  | nil =>
    simp [parseLoop] at h
    simp [h]
  | cons e rest ih =>
    rw [parseLoop] at h
    split at h
    · exact absurd h (by simp)
    · have := ih _ h
      simp at this
      omega

/-! ### Claim theorems -/

/-- C1: for every catalog of `N ≥ 1` responses and every sequence of
`getResponse` calls starting from cursor 0, the `i`-th call with `i < N`
returns the `i`-th catalog entry together with `isLast` computed from the
incremented cursor (`N ≤ i + 1`), `isLast` is true exactly for the call
whose entry index equals `N - 1`, and every call made when the cursor has
reached `N` signals exhaustion (`(none, false)`) instead of returning a
response. -/
theorem C1_dispense_in_order (h : handler) (h0 : h.pos = 0)
    (hN : 1 ≤ h.responses.length) :
    (∀ i, i < h.responses.length →
      (nthCall h i).1 = h.responses[i]? ∧
      (nthCall h i).2 = decide (h.responses.length ≤ i + 1) ∧
      ((nthCall h i).2 = true ↔ i = h.responses.length - 1)) ∧
    (∀ i, h.responses.length ≤ i → nthCall h i = (none, false)) := by
  constructor
  · intro i hi
    rw [nthCall_lt h i h0 hi]
    refine ⟨rfl, rfl, ?_⟩
    simp only [decide_eq_true_eq]
    omega
  · intro i hi
    exact nthCall_ge h i h0 hi

/-- Witness for C1 at the concrete two-entry catalog. -/
theorem C1_witness :
    exHandler2.pos = 0 ∧ 1 ≤ exHandler2.responses.length ∧
    nthCall exHandler2 2 = (none, false) :=
  ⟨rfl, by decide, (C1_dispense_in_order exHandler2 rfl (by decide)).2 2 (by decide)⟩

/-- C7: the cursor starts at 0 (`newHandler`), every `getResponse` call
preserves `cursor ≤ len(catalog)` (the lower bound `0 ≤ cursor` is carried
by the `Nat` representation of the never-decremented Go `int`), a
successful call increments the cursor by exactly one, an exhausted call
leaves it unchanged, and the cursor never decreases across a call. -/
theorem C7_cursor_invariant (h : handler) (hle : h.pos ≤ h.responses.length) :
    (∀ (g : Headers) (rcs : List responseConfig), (newHandler g rcs).pos = 0) ∧
    ((getResponse h).2).pos ≤ ((getResponse h).2).responses.length ∧
    (∀ r b, (getResponse h).1 = (some r, b) → ((getResponse h).2).pos = h.pos + 1) ∧
    (∀ b, (getResponse h).1 = (none, b) → ((getResponse h).2).pos = h.pos) ∧
    h.pos ≤ ((getResponse h).2).pos ∧
    (∀ n m : Nat, n ≤ m → (serveIter h n).pos ≤ (serveIter h m).pos) := by
  refine ⟨fun g rcs => rfl, ?_, ?_, ?_, ?_, fun n m hnm => serveIter_pos_mono h hnm⟩ <;>
    · unfold getResponse
      split <;> simp_all <;> omega

/-- Witness for C7 at the concrete two-entry catalog. -/
theorem C7_witness :
    exHandler2.pos ≤ exHandler2.responses.length ∧
    exHandler2.pos ≤ ((getResponse exHandler2).2).pos :=
  ⟨by decide, (C7_cursor_invariant exHandler2 (by decide)).2.2.2.2.1⟩

/-- C8: catalog immutability — a `getResponse` call and a request handled
by `ServeHTTP` leave `responses` (and hence every entry's status code,
body and headers) unchanged; the only handler state that may change is the
cursor `pos`. -/
theorem C8_catalog_immutable (h : handler) :
    ((getResponse h).2).responses = h.responses ∧
    ((ServeHTTP h).1).responses = h.responses ∧
    (ServeHTTP h).1 = { responses := h.responses, pos := ((ServeHTTP h).1).pos } := by
  have h1 : ((getResponse h).2).responses = h.responses := getResponse_responses h
  have h2 : ((ServeHTTP h).1).responses = h.responses := by
    show (stepServe h).responses = h.responses
    rw [stepServe_eq_getResponse, getResponse_responses]
  refine ⟨h1, h2, ?_⟩
  rcases hs : (ServeHTTP h).1 with ⟨rs, p⟩
  rw [hs] at h2
  simpa using h2

/-- Witness for C8 at the concrete two-entry catalog. -/
theorem C8_witness :
    ((getResponse exHandler2).2).responses = exHandler2.responses ∧
    ((ServeHTTP exHandler2).1).responses = exHandler2.responses :=
  ⟨(C8_catalog_immutable exHandler2).1, (C8_catalog_immutable exHandler2).2.1⟩

/-- C10: when `getResponse` signals exhaustion it returns
`(none, false)` and leaves the handler (in particular the cursor)
unchanged, so exhaustion is stable: every subsequent call in the sequence
also signals exhaustion. -/
theorem C10_exhaustion_stable (h : handler) (he : (getResponse h).1.1 = none) :
    (getResponse h).1 = (none, false) ∧ (getResponse h).2 = h ∧
    (∀ k, (nthCall h k).1 = none) := by
  have hnlt : ¬ h.pos < h.responses.length := by
    intro hlt
    simp [getResponse, hlt] at he
  have hfix : getResponse h = ((none, false), h) := by
    unfold getResponse
    rw [dif_neg hnlt]
  have hiter : ∀ k, serveIter h k = h := by
    intro k
    induction k with
    | zero => rfl
    | succ k ih =>
      have hstep : stepServe h = h := by
        rw [stepServe_eq_getResponse, hfix]
      rw [serveIter, hstep, ih]
  refine ⟨by rw [hfix], by rw [hfix], fun k => ?_⟩
  rw [nthCall, hiter k, hfix]

/-- C2: header composition — for canonically-keyed base and override maps
(as all maps produced by `parseHeaders` are), the resolved header map of a
built response maps each key present in the override to exactly the
override's value sequence, carries each key present only in the base
through unchanged (and so includes every key present only in the
override), matches keys case-insensitively (two present keys agreeing up
to canonical MIME case are literally equal), and, the functions being
pure, mutates neither input (`newResponse` copies into a clone of the
base); in particular the spec's example resolves as stated. -/
theorem C2_header_composition (base override : Headers)
    (hb : CanonicalKeyed base) (ho : CanonicalKeyed override) :
    (∀ sc bd, (newResponse { statusCode := sc, body := bd, headers := override } base).headers
        = mergeHeaders base override) ∧
    (∀ k vs, override k = some vs → mergeHeaders base override k = some vs) ∧
    (∀ k, override k = none → mergeHeaders base override k = base k) ∧
    (∀ k1 k2 vs1 vs2, base k1 = some vs1 → override k2 = some vs2 →
        canonicalMIMEHeaderKey k1 = canonicalMIMEHeaderKey k2 → k1 = k2) ∧
    mergeHeaders exBaseHeaders exOverrideHeaders = exResolvedHeaders := by
  refine ⟨fun sc bd => rfl, ?_, ?_, ?_, ?_⟩
  · intro k vs hk
    simp [mergeHeaders, hk]
  · intro k hk
    simp [mergeHeaders, hk]
  · intro k1 k2 vs1 vs2 h1 h2 hc
    have e1 : canonicalMIMEHeaderKey k1 = k1 := hb k1 vs1 h1
    have e2 : canonicalMIMEHeaderKey k2 = k2 := ho k2 vs2 h2
    rw [← e1, ← e2, hc]
  · funext k
    by_cases hA : k = "X-A"
    · simp [mergeHeaders, exBaseHeaders, exOverrideHeaders, exResolvedHeaders, hA]
    · by_cases hB : k = "X-B"
      · simp [mergeHeaders, exBaseHeaders, exOverrideHeaders, exResolvedHeaders, hB]
      · simp [mergeHeaders, exBaseHeaders, exOverrideHeaders, exResolvedHeaders, hA, hB]

/-- Witness for C2 at the spec's example maps. -/
theorem C2_witness :
    CanonicalKeyed exBaseHeaders ∧ CanonicalKeyed exOverrideHeaders ∧
    mergeHeaders exBaseHeaders exOverrideHeaders = exResolvedHeaders := by
  have hb : CanonicalKeyed exBaseHeaders := by
    intro k vs hk
    unfold exBaseHeaders at hk
    split_ifs at hk with h1 h2
    · rw [h1]; decide
    · rw [h2]; decide
  have ho : CanonicalKeyed exOverrideHeaders := by
    intro k vs hk
    unfold exOverrideHeaders at hk
    split_ifs at hk with h1
    · rw [h1]; decide
  exact ⟨hb, ho, (C2_header_composition exBaseHeaders exOverrideHeaders hb ho).2.2.2.2⟩

/-- A nodup list whose elements all equal `a` has at most one element. -/
lemma length_le_one_of_nodup_of_all_eq {a : Nat} {l : List Nat}
    (hnd : l.Nodup) (hall : ∀ x ∈ l, x = a) : l.length ≤ 1 := by
  cases l with
  | nil => simp
  | cons x xs =>
    rcases List.nodup_cons.mp hnd with ⟨hx, _⟩
    cases xs with
    | nil => simp
    | cons y ys =>
      have hxa : x = a := hall x (by simp)
      have hya : y = a := hall y (by simp)
      exact absurd (by simp [hxa, hya] : x ∈ y :: ys) hx

/-- C4: a request handled after the catalog is exhausted (the dispenser
returns `nil`) aborts the connection without writing any status line,
headers, or body (`Outcome.aborted`); consequently for a script of length
`N ≥ 1` started at cursor 0, each of the first `N` requests receives a
written scripted response and the `(N+1)`-th and all later requests
receive none. -/
theorem C4_abort_when_exhausted (h : handler) (h0 : h.pos = 0)
    (hN : 1 ≤ h.responses.length) :
    (∀ h' : handler, (getResponse h').1.1 = none → (ServeHTTP h').2 = Outcome.aborted) ∧
    (∀ i, i < h.responses.length → (nthOutcome h i).isWritten = true) ∧
    (∀ i, h.responses.length ≤ i → nthOutcome h i = Outcome.aborted) := by
  refine ⟨?_, ?_, ?_⟩
  · intro h' he
    unfold ServeHTTP
    rcases hg : getResponse h' with ⟨⟨resp, isLast⟩, h''⟩
    rw [hg] at he
    cases resp with
    | none => rfl
    | some r => exact absurd he (by simp)
  · intro i hi
    rw [nthOutcome_eq, nthCall_lt h i h0 hi]
    rcases hr : h.responses[i]? with _ | r
    · exact absurd (List.getElem?_eq_getElem hi) (by simp [hr])
    · simp [Outcome.isWritten]
  · intro i hi
    rw [nthOutcome_eq, nthCall_ge h i h0 hi]

/-- Witness for C4 at the concrete two-entry catalog: requests 0 and 1
are answered, request 2 is aborted. -/
theorem C4_witness :
    exHandler2.pos = 0 ∧ 1 ≤ exHandler2.responses.length ∧
    (nthOutcome exHandler2 1).isWritten = true ∧
    nthOutcome exHandler2 2 = Outcome.aborted :=
  ⟨rfl, by decide,
    (C4_abort_when_exhausted exHandler2 rfl (by decide)).2.1 1 (by decide),
    (C4_abort_when_exhausted exHandler2 rfl (by decide)).2.2 2 (by decide)⟩

/-- C5 counterexample: in the source, `ServeHTTP` spawns the shutdown
goroutine (`go h.shutdownServer()`, lines 86-88) BEFORE it writes the
dispensed response (lines 97-107), so for the single-entry catalog the
last request's action trace starts with the spawn and the response writes
follow it — refuting "writes the dispensed response and then
asynchronously invokes the shutdown trigger" read as the handler's
program order (`writesPrecedeShutdownSpawn` is false on the trace). -/
theorem C5_counterexample :
    nthActions exHandler1 0 =
      [ServeAction.spawnShutdown, ServeAction.logRequest,
       ServeAction.setHeaders (writtenHeader emptyHeaders),
       ServeAction.writeStatus 200, ServeAction.writeBody [79, 75]] ∧
    writesPrecedeShutdownSpawn (nthActions exHandler1 0) = false ∧
    (nthOutcome exHandler1 0).triggered = true := by
  refine ⟨rfl, rfl, rfl⟩

/-- C5, amended: for the single request whose `getResponse` call returns
`isLast = true` (the one at index `N - 1`), the handler asynchronously
invokes the shutdown trigger — spawning the goroutine before writing —
and then writes the dispensed response; no other request ever spawns the
trigger, so over any whole run the shutdown routine is triggered at most
once. -/
theorem C5_shutdown_at_most_once (h : handler) (h0 : h.pos = 0)
    (hN : 1 ≤ h.responses.length) :
    (∀ i, (nthActions h i).any ServeAction.isShutdownSpawn = true ↔
        i = h.responses.length - 1) ∧
    (∀ r, h.responses[h.responses.length - 1]? = some r →
      nthActions h (h.responses.length - 1) =
        [ServeAction.spawnShutdown, ServeAction.logRequest,
         ServeAction.setHeaders (writtenHeader r.headers),
         ServeAction.writeStatus r.statusCode, ServeAction.writeBody r.body]) ∧
    (∀ M : Nat,
      ((List.range M).filter
        (fun i => (nthActions h i).any ServeAction.isShutdownSpawn)).length ≤ 1) := by
  have key : ∀ i, (nthActions h i).any ServeAction.isShutdownSpawn = true ↔
      i = h.responses.length - 1 := by
    intro i
    by_cases hi : i < h.responses.length
    · rw [nthActions_eq, nthCall_lt h i h0 hi]
      rcases hr : h.responses[i]? with _ | r
      · exact absurd (List.getElem?_eq_getElem hi) (by simp [hr])
      · by_cases hlast : h.responses.length ≤ i + 1
        · simp [hlast, ServeAction.isShutdownSpawn]
          omega
        · simp [hlast, ServeAction.isShutdownSpawn]
          omega
    · rw [nthActions_eq, nthCall_ge h i h0 (by omega)]
      simp [ServeAction.isShutdownSpawn]
      omega
  refine ⟨key, ?_, fun M => ?_⟩
  · intro r hr
    have hlt : h.responses.length - 1 < h.responses.length := by omega
    rw [nthActions_eq, nthCall_lt h _ h0 hlt, hr]
    have hlast : h.responses.length ≤ (h.responses.length - 1) + 1 := by omega
    simp [hlast]
  · apply length_le_one_of_nodup_of_all_eq (a := h.responses.length - 1)
    · exact List.Nodup.filter _ (List.nodup_range M)
    · intro x hx
      exact (key x).mp (List.mem_filter.mp hx).2

/-- Witness for the amended C5 at the concrete two-entry catalog: request
1 (the second and last) spawns the shutdown goroutine before its writes. -/
theorem C5_witness :
    exHandler2.pos = 0 ∧ 1 ≤ exHandler2.responses.length ∧
    ((nthActions exHandler2 1).any ServeAction.isShutdownSpawn = true ↔
      1 = exHandler2.responses.length - 1) :=
  ⟨rfl, by decide, (C5_shutdown_at_most_once exHandler2 rfl (by decide)).1 1⟩

/-- C9: `newHandler` (and through it `newServer`) has no error path and
accepts an empty response list, producing an empty catalog; with an empty
catalog every `getResponse` call returns `(none, false)`, so no request is
ever answered, `isLast = true` is never produced, and the shutdown
goroutine is never spawned. -/
theorem C9_empty_response_list (g : Headers) :
    (newHandler g []).responses = [] ∧
    (∀ i, nthCall (newHandler g []) i = (none, false)) ∧
    (∀ i, nthOutcome (newHandler g []) i = Outcome.aborted) ∧
    (∀ i, (nthOutcome (newHandler g []) i).triggered = false) := by
  have hresp : (newHandler g []).responses = [] := rfl
  have hcall : ∀ i, nthCall (newHandler g []) i = (none, false) := by
    intro i
    exact nthCall_ge (newHandler g []) i rfl (by rw [hresp]; simp)
  have hout : ∀ i, nthOutcome (newHandler g []) i = Outcome.aborted := by
    intro i
    rw [nthOutcome_eq, hcall i]
  refine ⟨hresp, hcall, hout, fun i => ?_⟩
  rw [hout i]
  rfl

/-- Witness for C10 at the empty catalog. -/
theorem C10_witness :
    (getResponse exEmptyHandler).1.1 = none ∧
    (getResponse exEmptyHandler).2 = exEmptyHandler :=
  ⟨rfl, (C10_exhaustion_stable exEmptyHandler rfl).2.1⟩

/-- Witness for C9 at the empty response list and empty global headers. -/
theorem C9_witness :
    (newHandler emptyHeaders []).responses = [] ∧
    nthOutcome (newHandler emptyHeaders []) 0 = Outcome.aborted :=
  ⟨(C9_empty_response_list emptyHeaders).1,
    (C9_empty_response_list emptyHeaders).2.2.1 0⟩

/-- C3: repeat expansion — for a non-empty script whose repeat counts are
all `≥ 1`, `parseResponsesPart` succeeds with the concatenation, in script
order, of each entry's `responseConfig` repeated `repeatCount` times, and
the catalog `newHandler` builds from it is the concatenation, in script
order, of each entry's resolved response (`newResponse` against the
global headers) repeated `repeatCount` times. -/
theorem C3_repeat_expansion (g : Headers) (entries : List scriptEntry)
    (hne : entries ≠ []) (hrep : ∀ e ∈ entries, 1 ≤ e.repeatCount) :
    parseResponsesPart entries = .ok
      ((entries.map (fun e =>
        repeatResponse { statusCode := e.statusCode, body := e.body, headers := e.headers }
          e.repeatCount)).flatten) ∧
    (newHandler g ((entries.map (fun e =>
        repeatResponse { statusCode := e.statusCode, body := e.body, headers := e.headers }
          e.repeatCount)).flatten)).responses =
      (entries.map (fun e =>
        List.replicate e.repeatCount.toNat
          (newResponse { statusCode := e.statusCode, body := e.body, headers := e.headers } g))).flatten := by
  constructor
  · have hlen : ¬ entries.length < 1 := by
      cases entries with
      | nil => exact absurd rfl hne
      | cons e rest => simp
    rw [parseResponsesPart, if_neg hlen, parseLoop_ok entries [] hrep]
    simp
  · show List.map (fun rc => newResponse rc g) _ = _
    rw [List.map_flatten, List.map_map]
    simp [Function.comp_def, repeatResponse, List.map_replicate]

/-- C6: catalog construction rejects an empty script (the only way the
expanded catalog could be empty, every accepted repeat count being
positive) with the configuration error, and every successful
`parseResponsesPart` run yields a catalog of length `≥ 1`. -/
theorem C6_nonempty_catalog :
    (∀ entries cfgs, parseResponsesPart entries = .ok cfgs → 1 ≤ cfgs.length) ∧
    parseResponsesPart [] = .error "status code and body are required" := by
  constructor
  · intro entries cfgs h
    cases entries with
    | nil => exact absurd h (by simp [parseResponsesPart])
    | cons e rest =>
      rw [parseResponsesPart, if_neg (by simp)] at h
      rw [parseLoop] at h
      split at h
      · exact absurd h (by simp)
      · rename_i hpos
        have := parseLoop_length_mono rest _ cfgs h
        simp [repeatResponse] at this
        omega
  · rfl

/-- Witness for C3 at the spec's example entry `(200, "OK", [], repeat=3)`:
three identical consecutive catalog entries. -/
theorem C3_witness :
    1 ≤ exScriptEntry.repeatCount ∧
    (newHandler emptyHeaders (([exScriptEntry].map (fun e =>
        repeatResponse { statusCode := e.statusCode, body := e.body, headers := e.headers }
          e.repeatCount)).flatten)).responses =
      ([exScriptEntry].map (fun e =>
        List.replicate e.repeatCount.toNat
          (newResponse { statusCode := e.statusCode, body := e.body, headers := e.headers }
            emptyHeaders))).flatten :=
  ⟨by decide,
    (C3_repeat_expansion emptyHeaders [exScriptEntry] (by simp)
      (by intro e he; rw [List.mem_singleton] at he; subst he; decide)).2⟩

/-- Witness for C6 at the spec's example entry. -/
theorem C6_witness :
    parseResponsesPart [exScriptEntry] =
      .ok (repeatResponse { statusCode := 200, body := [79, 75], headers := emptyHeaders } 3) ∧
    1 ≤ (repeatResponse { statusCode := 200, body := [79, 75], headers := emptyHeaders } 3).length := by
  have hok : parseResponsesPart [exScriptEntry] =
      .ok (repeatResponse { statusCode := 200, body := [79, 75], headers := emptyHeaders } 3) := rfl
  exact ⟨hok, C6_nonempty_catalog.1 [exScriptEntry] _ hok⟩

end MockServer
